import Mathlib

/-!
Verification development for the XDP AIE-profile CT-file writer
(`xdp/profile/plugin/aie_profile/ve2/aie_profile_ct_writer.cpp`).

The writer is embedded shallowly: the filesystem is a snapshot value (entry
list, per-path line contents, a flag saying whether the output file can be
created), the counter store is a list of optional counter records, and all
64-bit machine arithmetic is carried out on `Nat` with explicit reduction
modulo `2 ^ 64`.  Code that can throw (`std::stoi` on an over-long digit
string) is modelled in the `Except Unit` monad, mirroring exactly which call
sites of the C++ source catch and which do not.
-/

set_option maxHeartbeats 1600000

namespace XDPCT

/-- Module base-offset constants.  The four constants
`CORE_MODULE_BASE_OFFSET`, `MEMORY_MODULE_BASE_OFFSET`, `MEM_TILE_BASE_OFFSET`
and `SHIM_TILE_BASE_OFFSET` are declared in the plugin header, which is not
part of the visible source slice, so they are kept abstract as parameters of
the model; no claim depends on their numeric values. -/
structure ModuleOffsets where
  coreModuleBase : Nat
  memoryModuleBase : Nat
  memTileBase : Nat
  shimTileBase : Nat
deriving DecidableEq

/-- Module base-offset lookup, translated from
`AieProfileCTWriter::getModuleBaseOffset` (source lines 235-247): four
recognized module strings, everything else defaults to the core offset. -/
def getModuleBaseOffset (offs : ModuleOffsets) (module : String) : Nat :=
  if module = "aie" then offs.coreModuleBase
  else if module = "aie_memory" then offs.memoryModuleBase
  else if module = "memory_tile" then offs.memTileBase
  else if module = "interface_tile" then offs.shimTileBase
  else offs.coreModuleBase

/-- Physical counter address, translated from
`AieProfileCTWriter::calculateCounterAddress` (source lines 218-233).
`columnShift`/`rowShift` are the constructor-loaded geometry values; the
left shifts and the additions are `uint64_t` operations, modelled with an
explicit `% 2 ^ 64`. -/
def calculateCounterAddress (columnShift rowShift : Nat) (offs : ModuleOffsets)
    (column row counterNumber : Nat) (module : String) : Nat :=
  let tileAddress := ((column <<< columnShift) % 2 ^ 64) ||| ((row <<< rowShift) % 2 ^ 64)
  let baseOffset := getModuleBaseOffset offs module
  let counterOffset := counterNumber * 4
  (tileAddress + baseOffset + counterOffset) % 2 ^ 64

/-- Address formula exactly as the specification states it:
`(column<<columnShift)|(row<<rowShift) + baseOffset(module) + counterIndex*4`,
with the bitwise-or forming the tile base (as in the source) and the whole
value living in 64-bit arithmetic. -/
def counterAddressSpec (columnShift rowShift : Nat) (offs : ModuleOffsets)
    (column row counterIndex : Nat) (module : String) : Nat :=
  ((((column <<< columnShift) % 2 ^ 64) ||| ((row <<< rowShift) % 2 ^ 64))
      + getModuleBaseOffset offs module + counterIndex * 4) % 2 ^ 64

/-- C1: for every counter coordinate tuple, counter index, module type and
device geometry, the computed physical address equals
`(column<<columnShift)|(row<<rowShift) + baseOffset(module) + counterIndex*4`.
Since the address is literally this function of the six inputs, it depends on
nothing else — in particular it is independent of call order. -/
theorem counterAddress_matches_spec (columnShift rowShift : Nat) (offs : ModuleOffsets)
    (column row counterIndex : Nat) (module : String) :
    calculateCounterAddress columnShift rowShift offs column row counterIndex module =
      counterAddressSpec columnShift rowShift offs column row counterIndex module := rfl

/-- One filesystem directory entry as seen by the recursive directory
iterator: full path, filename component, and whether it is a regular file. -/
structure FSEntry where
  path : String
  name : String
  isRegularFile : Bool
deriving DecidableEq

/-- Snapshot of the filesystem state a generation run sees: the entries the
recursive traversal of the working directory yields (in traversal order), the
text contents reachable per path (a path absent from `contents` is a file that
cannot be opened), and whether the output file can be created. -/
structure FileSystem where
  entries : List FSEntry
  contents : List (String × List String)
  outputWritable : Bool
deriving DecidableEq

/-- One `SAVE_TIMESTAMPS` marker occurrence: 1-based line number and the
optional decimal index (`-1` when absent), as in struct `SaveTimestampInfo`. -/
structure SaveTimestampInfo where
  lineNumber : Nat
  optionalIndex : Int
deriving DecidableEq

/-- One enumerated counter with its computed address, as in `CTCounterInfo`. -/
structure CTCounterInfo where
  column : Nat
  row : Nat
  counterNumber : Nat
  module : String
  address : Nat
deriving DecidableEq

/-- One discovered control file, as in `ASMFileInfo`.  `filename` is the full
path (as stored by `findASMFiles`); `basename` is its filename component,
which `writeCTFile` recovers with `fs::path(...).filename()`. -/
structure ASMFileInfo where
  filename : String
  basename : String
  asmId : Nat
  ucNumber : Nat
  colStart : Nat
  colEnd : Nat
  timestamps : List SaveTimestampInfo
  counters : List CTCounterInfo
deriving DecidableEq

/-- One record of the external static-info store (`AIECounter`). -/
structure AIECounter where
  column : Nat
  row : Nat
  counterNumber : Nat
  module : String
deriving DecidableEq

/-- Construction-time configuration of the writer: the two geometry shifts
read from the AIE configuration metadata plus the header offset table. -/
structure GenEnv where
  columnShift : Nat
  rowShift : Nat
  offsets : ModuleOffsets
deriving DecidableEq

/-- Boolean test that the first list is an initial segment of the second. -/
def leadEq [BEq α] : List α → List α → Bool
  | [], _ => true
  | _ :: _, [] => false
  | a :: as, b :: bs => a == b && leadEq as bs

/-- Decimal digit character class (`\d` of the regexes), on code points. -/
def isDigitCode (n : Nat) : Bool := decide (48 ≤ n ∧ n ≤ 57)

/-- Numeric value of a decimal digit-code string (what `std::stoi` computes
when it does not overflow). -/
def codesVal (ds : List Nat) : Nat := ds.foldl (fun a n => 10 * a + (n - 48)) 0

/-- Model of `std::stoi` applied to a non-empty decimal digit string: returns
the value when it fits in `int`, and raises `std::out_of_range` otherwise. -/
def stoiCodes (ds : List Nat) : Except Unit Nat :=
  if codesVal ds ≤ 2147483647 then .ok (codesVal ds) else .error ()

/-- Code points of a string. -/
def strCodes (s : String) : List Nat := s.toList.map Char.toNat

/-- Filename pattern `aie_runtime_control(\d+)\.asm` of `findASMFiles`
(`std::regex_match`, i.e. the whole filename must match); returns the digit
codes of the captured group. -/
def parseControlFilename (name : String) : Option (List Nat) :=
  let cs := strCodes name
  let pre := strCodes "aie_runtime_control"
  let suf := strCodes ".asm"
  if leadEq pre cs then
    let rest := cs.drop pre.length
    if suf.length + 1 ≤ rest.length
        && rest.drop (rest.length - suf.length) == suf
        && (rest.take (rest.length - suf.length)).all isDigitCode then
      some (rest.take (rest.length - suf.length))
    else none
  else none

/-- Record built by `findASMFiles` for one matching entry (source lines
97-104): `ucNumber = 4*id`, `colStart = id*4`, `colEnd = colStart + 3`. -/
def mkASMInfo (e : FSEntry) (id : Nat) : ASMFileInfo :=
  { filename := e.path, basename := e.name, asmId := id, ucNumber := 4 * id,
    colStart := id * 4, colEnd := id * 4 + 3, timestamps := [], counters := [] }

/-- Collection loop of `findASMFiles`: walk the traversal order, keep matching
regular files.  An `std::stoi` overflow inside the loop throws; the exception
is caught *outside* the loop (source lines 89-118), so everything collected
before the faulting entry is kept and the remaining entries are dropped. -/
def collectASMFiles : List FSEntry → List ASMFileInfo
  | [] => []
  | e :: rest =>
    if e.isRegularFile then
      match parseControlFilename e.name with
      | some ds =>
        match stoiCodes ds with
        | .ok id => mkASMInfo e id :: collectASMFiles rest
        | .error _ => []
      | none => collectASMFiles rest
    else collectASMFiles rest

/-- Comparison used by the `std::sort` call of `findASMFiles`. -/
def asmLE (a b : ASMFileInfo) : Prop := a.asmId ≤ b.asmId

instance : DecidableRel asmLE := fun _ _ => Nat.decLe _ _

instance : IsTotal ASMFileInfo asmLE := ⟨fun _ _ => Nat.le_total _ _⟩

instance : IsTrans ASMFileInfo asmLE := ⟨fun _ _ _ => Nat.le_trans⟩

/-- `AieProfileCTWriter::findASMFiles` (source lines 81-127): collect matching
entries from the recursive traversal, then sort by ASM id. -/
def findASMFiles (fs : FileSystem) : List ASMFileInfo :=
  List.insertionSort asmLE (collectASMFiles fs.entries)

/-- `AieProfileCTWriter::getConfiguredCounters` (source lines 174-201): fetch
each store slot by index, skip null entries, and compute each address. -/
def getConfiguredCounters (env : GenEnv) (store : List (Option AIECounter)) :
    List CTCounterInfo :=
  store.filterMap (fun slot => slot.map (fun a =>
    { column := a.column, row := a.row, counterNumber := a.counterNumber,
      module := a.module,
      address := calculateCounterAddress env.columnShift env.rowShift env.offsets
                   a.column a.row a.counterNumber a.module }))

/-- `AieProfileCTWriter::filterCountersByColumn` (source lines 203-216). -/
def filterCountersByColumn (allCounters : List CTCounterInfo) (colStart colEnd : Nat) :
    List CTCounterInfo :=
  allCounters.filter (fun c => colStart ≤ c.column && c.column ≤ colEnd)

/-- ASCII lower-casing on code points, the case folding `std::regex::icase`
performs on the all-ASCII marker keyword. -/
def lowN (n : Nat) : Nat := if 65 ≤ n ∧ n ≤ 90 then n + 32 else n

/-- Whitespace character class (`\s` of the regex), on code points. -/
def isSpaceCode (n : Nat) : Bool := decide (n = 32 ∨ (9 ≤ n ∧ n ≤ 13))

/-- Code points of the marker keyword, lower-cased. -/
def keywordCodes : List Nat := strCodes "save_timestamps"

/-- Leftmost occurrence scan of `std::regex_search` with pattern
`\s*SAVE_TIMESTAMPS\s*(\d*)` under `icase`: find the first position where the
keyword occurs (case-insensitively) and return the rest of the line after it.
The leading `\s*` and the optional capture group never affect whether the
pattern matches. -/
def scanKeyword : List Nat → Option (List Nat)
  | [] => none
  | c :: rest =>
    if leadEq keywordCodes ((c :: rest).map lowN) then
      some ((c :: rest).drop keywordCodes.length)
    else scanKeyword rest

/-- Capture group `(\d*)` after `\s*`: skip whitespace, take the maximal
digit run. -/
def digitsAfter (l : List Nat) : List Nat :=
  (l.dropWhile isSpaceCode).takeWhile isDigitCode

/-- Digit codes captured by group 1 on a line, `none` when the line has no
keyword occurrence. -/
def markerDigits (l : List Nat) : Option (List Nat) :=
  (scanKeyword l).map digitsAfter

/-- Per-line body of the `parseSaveTimestamps` loop (source lines 149-165):
on a keyword match record the line number and the parsed index (`std::stoi`,
which can throw) or the sentinel `-1`. -/
def lineMarker (n : Nat) (l : List Nat) : Except Unit (Option SaveTimestampInfo) :=
  match markerDigits l with
  | none => .ok none
  | some [] => .ok (some { lineNumber := n, optionalIndex := -1 })
  | some (d :: ds) =>
    match stoiCodes (d :: ds) with
    | .ok v => .ok (some { lineNumber := n, optionalIndex := (v : Int) })
    | .error e => .error e

/-- Line loop of `parseSaveTimestamps`, starting at line number `n`.  An
`std::stoi` exception at any line propagates: nothing is caught here. -/
def parseCodeLines : Nat → List (List Nat) → Except Unit (List SaveTimestampInfo)
  | _, [] => .ok []
  | n, l :: ls =>
    match lineMarker n l with
    | .error e => .error e
    | .ok none => parseCodeLines (n + 1) ls
    | .ok (some info) =>
      match parseCodeLines (n + 1) ls with
      | .error e => .error e
      | .ok rest => .ok (info :: rest)

/-- `AieProfileCTWriter::parseSaveTimestamps` (source lines 129-172) applied
to the lines of an already-opened file. -/
def parseSaveTimestamps (lines : List String) : Except Unit (List SaveTimestampInfo) :=
  parseCodeLines 1 (lines.map strCodes)

/-- Content lookup of `std::ifstream`: `none` means the file cannot be
opened. -/
def lookupLines (fs : FileSystem) (path : String) : Option (List String) :=
  fs.contents.lookup path

/-- Hex digit formatting of one `uint64_t` with `std::hex` (lowercase), via a
fuel-bounded most-significant-first digit expansion; fuel 64 covers every
value below `16 ^ 64`, far beyond the 64-bit domain. -/
def natToHexDigitsAux : Nat → Nat → List Char
  | 0, _ => []
  | fuel + 1, n =>
    if n < 16 then [Nat.digitChar n]
    else natToHexDigitsAux fuel (n / 16) ++ [Nat.digitChar (n % 16)]

/-- Minimal lowercase hexadecimal digit string of a number. -/
def natToHexDigits (n : Nat) : List Char := natToHexDigitsAux 64 n

/-- `AieProfileCTWriter::formatAddress` (source lines 249-254):
`"0x" << std::hex << std::setfill('0') << std::setw(10) << address`.
`setw` is a *minimum* field width: shorter values are left-padded with `'0'`
to 10 digits, longer values are printed in full. -/
def formatAddress (address : Nat) : String :=
  "0x" ++ String.mk (List.replicate (10 - (natToHexDigits address).length) '0'
      ++ natToHexDigits address)

/-- Fixed header comment of the CT file (source lines 270-271). -/
def ctHeader : String :=
  "# Auto-generated CT file for AIE Profile counters\n# Generated by XRT AIE Profile Plugin\n\n"

/-- Opening text of the `begin` block, up to the counter-metadata list
(source lines 274-285). -/
def beginPre : String :=
  "begin\n\x7b\n    ts_start = timestamp32()\n    print(\x22\\nAIE Profile tracing started\\n\x22)\n@blockopen\nimport json\nimport os\n\n# Initialize data collection\nprofile_data = \x7b\n    \x22start_timestamp\x22: ts_start,\n    \x22counter_metadata\x22: [\n"

/-- Closing text of the `begin` block (source lines 300-304). -/
def beginPost : String :=
  "    ],\n    \x22probes\x22: []\n\x7d\n@blockclose\n\x7d\n\n"

/-- One counter-metadata line of the `begin` block (source lines 290-294). -/
def metadataEntry (c : CTCounterInfo) : String :=
  "        \x7b\x22column\x22: " ++ toString c.column ++ ", \x22row\x22: " ++ toString c.row
    ++ ", \x22counter\x22: " ++ toString c.counterNumber ++ ", \x22module\x22: \x22"
    ++ c.module ++ "\x22, \x22address\x22: \x22" ++ formatAddress c.address ++ "\x22\x7d"

/-- Join of the metadata lines: a comma after every line but the last, then a
newline (source lines 288-298). -/
def commaJoinLines : List String → String
  | [] => ""
  | [x] => x ++ "\n"
  | x :: y :: r => x ++ ",\n" ++ commaJoinLines (y :: r)

/-- The `begin` block (source lines 274-304). -/
def beginBlockText (allCounters : List CTCounterInfo) : String :=
  beginPre ++ commaJoinLines (allCounters.map metadataEntry) ++ beginPost

/-- Comma-joined marker line-number list of a `jprobe` declaration (source
lines 318-324). -/
def lineListText (ts : List SaveTimestampInfo) : String :=
  "line" ++ String.intercalate "," (ts.map (fun t => toString t.lineNumber))

/-- Register-read lines of one probe block (source lines 334-337). -/
def counterReadsText (cs : List CTCounterInfo) : String :=
  String.join (cs.enum.map (fun p =>
    "    ctr_" ++ toString p.1 ++ " = read_reg(" ++ formatAddress p.2.address ++ ")\n"))

/-- Comma-joined counter variable names of one probe block (source lines
347-351). -/
def ctrVarsText (n : Nat) : String :=
  String.intercalate ", " ((List.range n).map (fun i => "ctr_" ++ toString i))

/-- One probe block for a control file (source lines 311-356). -/
def probeBlockText (f : ASMFileInfo) : String :=
  "# Probes for " ++ f.basename ++ " (columns " ++ toString f.colStart ++ "-"
    ++ toString f.colEnd ++ ")\n"
  ++ "jprobe:" ++ f.basename ++ ":uc" ++ toString f.ucNumber ++ ":"
    ++ lineListText f.timestamps ++ "\n"
  ++ "\x7b\n    ts = timestamp32()\n"
  ++ counterReadsText f.counters
  ++ "    print(f\x22Probe fired: ts=\x7bts\x7d\x22)\n@blockopen\nprofile_data[\x22probes\x22].append(\x7b\n    \x22asm_file\x22: \x22"
    ++ f.basename ++ "\x22,\n    \x22timestamp\x22: ts,\n    \x22counters\x22: ["
  ++ ctrVarsText f.counters.length
  ++ "]\n\x7d)\n@blockclose\n\x7d\n\n"

/-- The `end` block (source lines 360-373). -/
def endBlockText : String :=
  "end\n\x7b\n    ts_end = timestamp32()\n    print(\x22\\nAIE Profile tracing ended\\n\x22)\n@blockopen\nprofile_data[\x22end_timestamp\x22] = ts_end\nprofile_data[\x22total_time\x22] = ts_end - profile_data[\x22start_timestamp\x22]\n\noutput_path = os.path.join(os.getcwd(), \x22aie_profile_counters.json\x22)\nwith open(output_path, \x22w\x22) as f:\n    json.dump(profile_data, f, indent=2)\nprint(f\x22Profile data written to \x7boutput_path\x7d\x22)\n@blockclose\n\x7d\n"

/-- Body of `AieProfileCTWriter::writeCTFile` (source lines 256-382) once the
output stream is open: header, `begin` block over *all* counters, one probe
block per control file that has both markers and associated counters, `end`
block. -/
def writeCTFile (asmFiles : List ASMFileInfo) (allCounters : List CTCounterInfo) : String :=
  ctHeader ++ beginBlockText allCounters
    ++ String.join (asmFiles.map (fun f =>
         if f.timestamps.isEmpty || f.counters.isEmpty then "" else probeBlockText f))
    ++ endBlockText

/-- Per-file body of the step-3 loop of `generate` (source lines 59-69):
parse the file's markers (an unopenable file contributes zero markers; a
parse exception propagates) and filter the counters to the file's column
range. -/
def processFile (fs : FileSystem) (allCounters : List CTCounterInfo) (f : ASMFileInfo) :
    Except Unit ASMFileInfo :=
  match (match lookupLines fs f.filename with
         | none => Except.ok []
         | some lines => parseSaveTimestamps lines) with
  | .error e => .error e
  | .ok ts => .ok { f with timestamps := ts,
                           counters := filterCountersByColumn allCounters f.colStart f.colEnd }

/-- Left-to-right effectful map; an error at one element prevents the
processing of the later ones, like the C++ loop it models. -/
def mapExcept (g : α → Except Unit β) : List α → Except Unit (List β)
  | [] => .ok []
  | x :: xs =>
    match g x with
    | .error e => .error e
    | .ok y =>
      match mapExcept g xs with
      | .error e => .error e
      | .ok ys => .ok (y :: ys)

/-- `AieProfileCTWriter::generate` (source lines 39-79).  The result is
`(returned bool, produced artifact)`; `.error` means an exception escaped the
function.  Gate order as in the source: no files, no counters, no markers
across all files, then the write (which fails only when the output file
cannot be created). -/
def generate (env : GenEnv) (fs : FileSystem) (store : List (Option AIECounter)) :
    Except Unit (Bool × Option String) :=
  let asmFiles := findASMFiles fs
  if asmFiles.isEmpty then .ok (false, none)
  else
    let allCounters := getConfiguredCounters env store
    if allCounters.isEmpty then .ok (false, none)
    else
      match mapExcept (processFile fs allCounters) asmFiles with
      | .error e => .error e
      | .ok processed =>
        if processed.all (fun f => f.timestamps.isEmpty) then .ok (false, none)
        else if fs.outputWritable then .ok (true, some (writeCTFile processed allCounters))
        else .ok (false, none)

/-- C9: a module string outside the four recognized names resolves to the same
base offset as `"aie"` (the core module), without any error. -/
theorem moduleBaseOffset_default (offs : ModuleOffsets) (module : String)
    (h1 : module ≠ "aie") (h2 : module ≠ "aie_memory")
    (h3 : module ≠ "memory_tile") (h4 : module ≠ "interface_tile") :
    getModuleBaseOffset offs module = getModuleBaseOffset offs "aie" := by
  simp [getModuleBaseOffset, h1, h2, h3, h4]

/-- C9 witness: `module="unknown_type"` resolves to the same offset as
`module="aie"`, at a concrete offset table. -/
theorem moduleBaseOffset_default_witness :
    getModuleBaseOffset ⟨1, 2, 3, 4⟩ "unknown_type" = getModuleBaseOffset ⟨1, 2, 3, 4⟩ "aie" :=
  moduleBaseOffset_default ⟨1, 2, 3, 4⟩ "unknown_type"
    (by decide) (by decide) (by decide) (by decide)

theorem writeCTFile_ne_empty (asmFiles : List ASMFileInfo) (allCounters : List CTCounterInfo) :
    writeCTFile asmFiles allCounters ≠ "" := by
  intro h
  have hlen := congrArg String.length h
  simp only [writeCTFile, String.length_append] at hlen
  have hc : 0 < ctHeader.length := by decide
  have he : ("" : String).length = 0 := by decide
  omega

/-- C2: generation is a pure function of the construction-time geometry, the
filesystem snapshot and the counter-store snapshot: two runs over identical
state produce identical results — in particular byte-identical output
artifacts.  The embedding exposes every input `generate` reads; no other
state (time, randomness, previous runs) exists to vary. -/
theorem generate_deterministic (env₁ env₂ : GenEnv) (fs₁ fs₂ : FileSystem)
    (store₁ store₂ : List (Option AIECounter))
    (henv : env₁ = env₂) (hfs : fs₁ = fs₂) (hstore : store₁ = store₂) :
    generate env₁ fs₁ store₁ = generate env₂ fs₂ store₂ := by
  subst henv hfs hstore; rfl

/-- C2 witness: two runs over one concrete state coincide. -/
theorem generate_deterministic_witness :
    generate ⟨1, 2, ⟨10, 20, 30, 40⟩⟩
        ⟨[⟨"p0/aie_runtime_control0.asm", "aie_runtime_control0.asm", true⟩],
         [("p0/aie_runtime_control0.asm", ["SAVE_TIMESTAMPS"])], true⟩
        [some ⟨1, 2, 3, "aie"⟩] =
      generate ⟨1, 2, ⟨10, 20, 30, 40⟩⟩
        ⟨[⟨"p0/aie_runtime_control0.asm", "aie_runtime_control0.asm", true⟩],
         [("p0/aie_runtime_control0.asm", ["SAVE_TIMESTAMPS"])], true⟩
        [some ⟨1, 2, 3, "aie"⟩] :=
  generate_deterministic _ _ _ _ _ _ rfl rfl rfl

/-- C3: `generate` short-circuits in the fixed gate order of the source: zero
discovered files → `false`; files but zero counters → `false`; files and
counters but zero markers across all (successfully processed) files →
`false`; and once some file has at least one marker and at least one
associated counter (and the output file can be created), it returns `true`
with a non-empty artifact. -/
theorem generate_gate_order (env : GenEnv) (fs : FileSystem)
    (store : List (Option AIECounter)) :
    (findASMFiles fs = [] → generate env fs store = .ok (false, none)) ∧
    (findASMFiles fs ≠ [] → getConfiguredCounters env store = [] →
      generate env fs store = .ok (false, none)) ∧
    (∀ processed, findASMFiles fs ≠ [] → getConfiguredCounters env store ≠ [] →
      mapExcept (processFile fs (getConfiguredCounters env store)) (findASMFiles fs) =
        .ok processed →
      (∀ f ∈ processed, f.timestamps = []) →
      generate env fs store = .ok (false, none)) ∧
    (∀ processed f₀, findASMFiles fs ≠ [] → getConfiguredCounters env store ≠ [] →
      mapExcept (processFile fs (getConfiguredCounters env store)) (findASMFiles fs) =
        .ok processed →
      f₀ ∈ processed → f₀.timestamps ≠ [] → f₀.counters ≠ [] →
      fs.outputWritable = true →
      ∃ out, generate env fs store = .ok (true, some out) ∧ out ≠ "") := by
  refine ⟨?_, ?_, ?_, ?_⟩
  · intro h
    simp [generate, h]
  · intro h1 h2
    simp [generate, List.isEmpty_iff, h1, h2]
  · intro processed h1 h2 hm hall
    have hA : processed.all (fun f => f.timestamps.isEmpty) = true :=
      List.all_eq_true.mpr fun x hx => List.isEmpty_iff.mpr (hall x hx)
    simp [generate, List.isEmpty_iff, h1, h2, hm, hA]
  · intro processed f₀ h1 h2 hm hf₀ hts _hc hw
    have hA : processed.all (fun f => f.timestamps.isEmpty) = false := by
      cases hA : processed.all (fun f => f.timestamps.isEmpty) with
      | true => exact absurd (List.isEmpty_iff.mp (List.all_eq_true.mp hA f₀ hf₀)) hts
      | false => rfl
    refine ⟨writeCTFile processed (getConfiguredCounters env store), ?_,
      writeCTFile_ne_empty _ _⟩
    simp [generate, List.isEmpty_iff, h1, h2, hm, hA, hw]

/-- C3 witness: the four gates at concrete states — no files; files but no
counters; files and counters but no markers; a file with a marker and an
associated counter. -/
theorem generate_gate_order_witness :
    generate ⟨0, 0, ⟨0, 0, 0, 0⟩⟩ ⟨[], [], true⟩ [some ⟨0, 0, 0, "aie"⟩] =
        .ok (false, none) ∧
    generate ⟨0, 0, ⟨0, 0, 0, 0⟩⟩
        ⟨[⟨"a/aie_runtime_control0.asm", "aie_runtime_control0.asm", true⟩],
         [("a/aie_runtime_control0.asm", ["SAVE_TIMESTAMPS"])], true⟩ [] =
        .ok (false, none) ∧
    generate ⟨0, 0, ⟨0, 0, 0, 0⟩⟩
        ⟨[⟨"a/aie_runtime_control0.asm", "aie_runtime_control0.asm", true⟩],
         [("a/aie_runtime_control0.asm", ["nop"])], true⟩ [some ⟨0, 0, 0, "aie"⟩] =
        .ok (false, none) ∧
    (∃ out, generate ⟨0, 0, ⟨0, 0, 0, 0⟩⟩
        ⟨[⟨"a/aie_runtime_control0.asm", "aie_runtime_control0.asm", true⟩],
         [("a/aie_runtime_control0.asm", ["SAVE_TIMESTAMPS"])], true⟩
        [some ⟨0, 0, 0, "aie"⟩] = .ok (true, some out) ∧ out ≠ "") := by
  refine ⟨?_, ?_, ?_, ?_⟩
  · exact (generate_gate_order _ _ _).1 rfl
  · exact (generate_gate_order _ _ _).2.1 (by decide) rfl
  · exact (generate_gate_order _ _ _).2.2.1
      [{ filename := "a/aie_runtime_control0.asm", basename := "aie_runtime_control0.asm",
         asmId := 0, ucNumber := 0, colStart := 0, colEnd := 3, timestamps := [],
         counters := [⟨0, 0, 0, "aie", 0⟩] }]
      (by decide) (by decide) rfl (by decide)
  · exact (generate_gate_order _ _ _).2.2.2
      [{ filename := "a/aie_runtime_control0.asm", basename := "aie_runtime_control0.asm",
         asmId := 0, ucNumber := 0, colStart := 0, colEnd := 3,
         timestamps := [⟨1, -1⟩], counters := [⟨0, 0, 0, "aie", 0⟩] }]
      { filename := "a/aie_runtime_control0.asm", basename := "aie_runtime_control0.asm",
        asmId := 0, ucNumber := 0, colStart := 0, colEnd := 3,
        timestamps := [⟨1, -1⟩], counters := [⟨0, 0, 0, "aie", 0⟩] }
      (by decide) (by decide) rfl (by decide) (by decide) (by decide) rfl

/-- Concrete state demonstrating the unprotected `std::stoi` call: one
discovered control file whose marker line carries a digit run exceeding
`INT_MAX`, and one configured counter so that parsing is reached. -/
def overflowFS : FileSystem :=
  ⟨[⟨"aie_runtime_control0.asm", "aie_runtime_control0.asm", true⟩],
   [("aie_runtime_control0.asm", ["SAVE_TIMESTAMPS 9999999999"])], true⟩

/-- C6: the claim that no exception escapes `generate` fails on the code.
`parseSaveTimestamps` calls `std::stoi` on the captured digit run (source
line 158) with no surrounding try/catch, so a marker index above `INT_MAX`
raises `std::out_of_range` straight out of `generate` instead of returning a
boolean.  (The analogous `std::stoi` of `findASMFiles` *is* inside a catch.) -/
theorem stoi_overflow_escapes_generate :
    generate ⟨0, 0, ⟨0, 0, 0, 0⟩⟩ overflowFS [some ⟨0, 0, 0, "aie"⟩] = .error () := rfl

theorem collect_col_range : ∀ (entries : List FSEntry), ∀ f ∈ collectASMFiles entries,
    f.colStart = 4 * f.asmId ∧ f.colEnd = 4 * f.asmId + 3 := by
  intro entries
  induction entries with
  | nil => intro f hf; simp [collectASMFiles] at hf
  | cons e rest ih =>
    intro f hf
    simp only [collectASMFiles] at hf
    split at hf
    · split at hf
      · split at hf
        · rcases List.mem_cons.mp hf with h | h
          · subst h; exact ⟨by simp [mkASMInfo, Nat.mul_comm], by simp [mkASMInfo, Nat.mul_comm]⟩
          · exact ih f h
        · simp at hf
      · exact ih f hf
    · exact ih f hf

theorem mem_findASMFiles {fs : FileSystem} {f : ASMFileInfo} (h : f ∈ findASMFiles fs) :
    f ∈ collectASMFiles fs.entries :=
  (List.perm_insertionSort asmLE (collectASMFiles fs.entries)).mem_iff.mp h

/-- C4 (amended): for every filesystem enumeration the discoverer's output is
sorted ascending (non-strictly) by tile-group id, and any two discovered
files with *distinct* tile-group ids have disjoint column ranges.  (Equal ids
— the same filename found in two directories — give identical, overlapping
ranges; see the counterexample.) -/
theorem findASMFiles_sorted_disjoint (fs : FileSystem) :
    List.Pairwise asmLE (findASMFiles fs) ∧
    ∀ a ∈ findASMFiles fs, ∀ b ∈ findASMFiles fs, a.asmId ≠ b.asmId →
      a.colEnd < b.colStart ∨ b.colEnd < a.colStart := by
  constructor
  · exact List.sorted_insertionSort asmLE _
  · intro a ha b hb hne
    obtain ⟨ha1, ha2⟩ := collect_col_range _ a (mem_findASMFiles ha)
    obtain ⟨hb1, hb2⟩ := collect_col_range _ b (mem_findASMFiles hb)
    omega

/-- Strict ascent by tile-group id, the ordering the original claim asserts. -/
def strictAscByAsmId : List ASMFileInfo → Bool
  | [] => true
  | [_] => true
  | a :: b :: r => decide (a.asmId < b.asmId) && strictAscByAsmId (b :: r)

/-- Filesystem presenting the same control filename in two directories: the
recursive traversal matches both, so one tile-group id is discovered twice. -/
def dupIdFS : FileSystem :=
  ⟨[⟨"dirA/aie_runtime_control1.asm", "aie_runtime_control1.asm", true⟩,
    ⟨"dirB/aie_runtime_control1.asm", "aie_runtime_control1.asm", true⟩], [], true⟩

/-- C4 counterexample: with `aie_runtime_control1.asm` present in two
subdirectories, the discoverer's output is *not* strictly ascending by
tile-group id, and the two distinct discovered files carry the identical
(hence overlapping) column range `[4, 7]`. -/
theorem findASMFiles_not_strictly_sorted :
    strictAscByAsmId (findASMFiles dupIdFS) = false ∧
    (findASMFiles dupIdFS).map (fun f => (f.filename, f.colStart, f.colEnd)) =
      [("dirA/aie_runtime_control1.asm", 4, 7), ("dirB/aie_runtime_control1.asm", 4, 7)] := by
  exact ⟨rfl, rfl⟩

/-- Filesystem with two distinct tile-group ids, enumerated out of order. -/
def twoIdFS : FileSystem :=
  ⟨[⟨"b/aie_runtime_control2.asm", "aie_runtime_control2.asm", true⟩,
    ⟨"a/aie_runtime_control0.asm", "aie_runtime_control0.asm", true⟩], [], true⟩

def infoUC0 : ASMFileInfo :=
  mkASMInfo ⟨"a/aie_runtime_control0.asm", "aie_runtime_control0.asm", true⟩ 0

def infoUC2 : ASMFileInfo :=
  mkASMInfo ⟨"b/aie_runtime_control2.asm", "aie_runtime_control2.asm", true⟩ 2

/-- C4 witness: on a concrete out-of-order enumeration with ids 2 and 0, the
output is sorted and the two files' column ranges are disjoint. -/
theorem findASMFiles_sorted_disjoint_witness :
    List.Pairwise asmLE (findASMFiles twoIdFS) ∧
    (infoUC0.colEnd < infoUC2.colStart ∨ infoUC2.colEnd < infoUC0.colStart) :=
  ⟨(findASMFiles_sorted_disjoint twoIdFS).1,
   (findASMFiles_sorted_disjoint twoIdFS).2 infoUC0 (by decide) infoUC2 (by decide) (by decide)⟩

theorem foldl_append_all_empty (l : List String) (acc : String)
    (h : ∀ x ∈ l, x = "") : List.foldl (· ++ ·) acc l = acc := by
  induction l generalizing acc with
  | nil => rfl
  | cons x xs ih =>
    have hx : x = "" := h x (List.mem_cons_self x xs)
    rw [List.foldl_cons, hx, String.append_empty]
    exact ih acc fun y hy => h y (List.mem_cons_of_mem x hy)

/-- C10: the per-file condition (markers AND associated counters) gates only
that file's probe block, not overall success: when every processed file lacks
markers or lacks associated counters — but some file does have markers —
`generate` still returns `true` and the artifact consists of exactly the
header, the `begin` block and the `end` block, with zero probe blocks. -/
theorem probe_blocks_gated_locally (env : GenEnv) (fs : FileSystem)
    (store : List (Option AIECounter)) (processed : List ASMFileInfo)
    (h1 : findASMFiles fs ≠ []) (h2 : getConfiguredCounters env store ≠ [])
    (hm : mapExcept (processFile fs (getConfiguredCounters env store)) (findASMFiles fs) =
      .ok processed)
    (hts : ∃ f ∈ processed, f.timestamps ≠ [])
    (hskip : ∀ f ∈ processed, f.timestamps = [] ∨ f.counters = [])
    (hw : fs.outputWritable = true) :
    generate env fs store =
      .ok (true, some (ctHeader ++ beginBlockText (getConfiguredCounters env store)
        ++ endBlockText)) := by
  obtain ⟨f₀, hf₀, hts₀⟩ := hts
  have hA : processed.all (fun f => f.timestamps.isEmpty) = false := by
    cases hA : processed.all (fun f => f.timestamps.isEmpty) with
    | true => exact absurd (List.isEmpty_iff.mp (List.all_eq_true.mp hA f₀ hf₀)) hts₀
    | false => rfl
  have hjoin : String.join (processed.map (fun f =>
      if f.timestamps.isEmpty || f.counters.isEmpty then "" else probeBlockText f)) = "" := by
    apply foldl_append_all_empty
    intro x hx
    obtain ⟨f, hf, hfx⟩ := List.mem_map.mp hx
    rcases hskip f hf with h | h <;> simp [h] at hfx <;> exact hfx.symm
  have hwrite : writeCTFile processed (getConfiguredCounters env store) =
      ctHeader ++ beginBlockText (getConfiguredCounters env store) ++ endBlockText := by
    rw [writeCTFile, hjoin, String.append_empty]
  simp [generate, List.isEmpty_iff, h1, h2, hm, hA, hw, hwrite]

/-- Concrete scenario for C10: file id 0 has a marker but no counter in
columns 0-3; file id 1 has a counter (column 5) but no marker. -/
def crossFS : FileSystem :=
  ⟨[⟨"p0/aie_runtime_control0.asm", "aie_runtime_control0.asm", true⟩,
    ⟨"p1/aie_runtime_control1.asm", "aie_runtime_control1.asm", true⟩],
   [("p0/aie_runtime_control0.asm", ["SAVE_TIMESTAMPS"]),
    ("p1/aie_runtime_control1.asm", ["nop"])], true⟩

def crossEnv : GenEnv := ⟨1, 2, ⟨10, 20, 30, 40⟩⟩

def crossStore : List (Option AIECounter) := [some ⟨5, 0, 0, "aie"⟩]

/-- C10 witness: on the concrete crossed scenario, `generate` returns `true`
and the artifact is exactly header, `begin` block and `end` block. -/
theorem probe_blocks_gated_locally_witness :
    generate crossEnv crossFS crossStore =
      .ok (true, some (ctHeader ++ beginBlockText (getConfiguredCounters crossEnv crossStore)
        ++ endBlockText)) :=
  probe_blocks_gated_locally crossEnv crossFS crossStore
    [{ filename := "p0/aie_runtime_control0.asm", basename := "aie_runtime_control0.asm",
       asmId := 0, ucNumber := 0, colStart := 0, colEnd := 3,
       timestamps := [⟨1, -1⟩], counters := [] },
     { filename := "p1/aie_runtime_control1.asm", basename := "aie_runtime_control1.asm",
       asmId := 1, ucNumber := 4, colStart := 4, colEnd := 7,
       timestamps := [], counters := [⟨5, 0, 0, "aie", 20⟩] }]
    (by decide) (by decide) rfl
    ⟨{ filename := "p0/aie_runtime_control0.asm", basename := "aie_runtime_control0.asm",
       asmId := 0, ucNumber := 0, colStart := 0, colEnd := 3,
       timestamps := [⟨1, -1⟩], counters := [] }, by decide, by decide⟩
    (by decide) rfl

theorem mapExcept_ok_mem {g : α → Except Unit β} :
    ∀ {l : List α} {ys : List β} {y : β},
      mapExcept g l = .ok ys → y ∈ ys → ∃ x ∈ l, g x = .ok y := by
  intro l
  induction l with
  | nil =>
    intro ys y h hy
    simp only [mapExcept] at h
    cases h
    simp at hy
  | cons x xs ih =>
    intro ys y h hy
    simp only [mapExcept] at h
    split at h
    · cases h
    · split at h
      · cases h
      · cases h
        rcases List.mem_cons.mp hy with rfl | hmem
        · exact ⟨x, List.mem_cons_self x xs, by assumption⟩
        · obtain ⟨x', hx', hg⟩ := ih (by assumption) hmem
          exact ⟨x', List.mem_cons_of_mem x hx', hg⟩

theorem processFile_ok_shape {fs : FileSystem} {allCounters : List CTCounterInfo}
    {f f' : ASMFileInfo} (h : processFile fs allCounters f = .ok f') :
    f'.colStart = f.colStart ∧ f'.colEnd = f.colEnd ∧
    f'.counters = filterCountersByColumn allCounters f.colStart f.colEnd := by
  unfold processFile at h
  split at h
  · cases h
  · cases h
    exact ⟨rfl, rfl, rfl⟩

/-- C7: a counter is associated with a control file iff its column lies in
the file's inclusive column range; and a counter whose column falls outside
every discovered file's range still contributes its line to the global
counter-metadata list of the emitted script but belongs to no file's
associated-counter list (hence to no probe block). -/
theorem counter_association (env : GenEnv) (fs : FileSystem)
    (store : List (Option AIECounter)) :
    (∀ (cs : List CTCounterInfo) (s e : Nat) (c : CTCounterInfo),
      c ∈ filterCountersByColumn cs s e ↔ c ∈ cs ∧ s ≤ c.column ∧ c.column ≤ e) ∧
    (∀ processed c,
      mapExcept (processFile fs (getConfiguredCounters env store)) (findASMFiles fs) =
        .ok processed →
      c ∈ getConfiguredCounters env store →
      (∀ f ∈ findASMFiles fs, ¬ (f.colStart ≤ c.column ∧ c.column ≤ f.colEnd)) →
      metadataEntry c ∈ (getConfiguredCounters env store).map metadataEntry ∧
      ∀ f ∈ processed, c ∉ f.counters) := by
  have hfilter : ∀ (cs : List CTCounterInfo) (s e : Nat) (c : CTCounterInfo),
      c ∈ filterCountersByColumn cs s e ↔ c ∈ cs ∧ s ≤ c.column ∧ c.column ≤ e := by
    intro cs s e c
    simp [filterCountersByColumn, List.mem_filter, Bool.and_eq_true, decide_eq_true_eq,
      and_assoc]
  refine ⟨hfilter, ?_⟩
  intro processed c hm hc hout
  refine ⟨List.mem_map_of_mem metadataEntry hc, ?_⟩
  intro f' hf' hcmem
  obtain ⟨f, hfmem, hok⟩ := mapExcept_ok_mem hm hf'
  obtain ⟨_, _, h3⟩ := processFile_ok_shape hok
  rw [h3] at hcmem
  exact hout f hfmem ((hfilter _ _ _ _).mp hcmem).2

/-- Scenario for the C7 witness: one control file owning columns 0-3, one
counter at column 9 outside every discovered range. -/
def outFS : FileSystem :=
  ⟨[⟨"q/aie_runtime_control0.asm", "aie_runtime_control0.asm", true⟩],
   [("q/aie_runtime_control0.asm", ["SAVE_TIMESTAMPS 2"])], true⟩

def outEnv : GenEnv := ⟨1, 2, ⟨10, 20, 30, 40⟩⟩

def outStore : List (Option AIECounter) := [some ⟨9, 0, 0, "aie"⟩]

def outCounter : CTCounterInfo := ⟨9, 0, 0, "aie", 28⟩

def outProcessed : List ASMFileInfo :=
  [{ filename := "q/aie_runtime_control0.asm", basename := "aie_runtime_control0.asm",
     asmId := 0, ucNumber := 0, colStart := 0, colEnd := 3,
     timestamps := [⟨1, 2⟩], counters := [] }]

/-- C7 witness: the spec's own example — a counter at column 9 lies in the
range `[8, 11]` of tile-group 2 — and, on `outFS`, the column-9 counter is in
the metadata list of the script while no processed file's counter list
contains it. -/
theorem counter_association_witness :
    (outCounter ∈ filterCountersByColumn [outCounter] 8 11 ↔
      outCounter ∈ [outCounter] ∧ 8 ≤ outCounter.column ∧ outCounter.column ≤ 11) ∧
    (metadataEntry outCounter ∈
        (getConfiguredCounters outEnv outStore).map metadataEntry ∧
      ∀ f ∈ outProcessed, outCounter ∉ f.counters) :=
  ⟨(counter_association outEnv outFS outStore).1 [outCounter] 8 11 outCounter,
   (counter_association outEnv outFS outStore).2 outProcessed
     outCounter rfl (by decide) (by decide)⟩

/-- Numeric value of one lowercase hexadecimal digit character. -/
def hexCharVal (c : Char) : Nat :=
  if c = '0' then 0 else if c = '1' then 1 else if c = '2' then 2
  else if c = '3' then 3 else if c = '4' then 4 else if c = '5' then 5
  else if c = '6' then 6 else if c = '7' then 7 else if c = '8' then 8
  else if c = '9' then 9 else if c = 'a' then 10 else if c = 'b' then 11
  else if c = 'c' then 12 else if c = 'd' then 13 else if c = 'e' then 14
  else if c = 'f' then 15 else 0

/-- Value of a big-endian hexadecimal digit string. -/
def hexListVal (l : List Char) : Nat := l.foldl (fun a c => 16 * a + hexCharVal c) 0

/-- The sixteen lowercase hexadecimal digit characters. -/
def hexDigitSet : List Char := "0123456789abcdef".toList

theorem hexCharVal_digitChar (m : Nat) (hm : m < 16) : hexCharVal (Nat.digitChar m) = m := by
  interval_cases m <;> rfl

theorem digitChar_mem_hexSet (m : Nat) (hm : m < 16) : Nat.digitChar m ∈ hexDigitSet := by
  interval_cases m <;> decide

theorem hexListVal_append_singleton (l : List Char) (c : Char) :
    hexListVal (l ++ [c]) = 16 * hexListVal l + hexCharVal c := by
  simp [hexListVal, List.foldl_append]

theorem natToHexDigitsAux_spec : ∀ (fuel n : Nat), n < 16 ^ fuel →
    hexListVal (natToHexDigitsAux fuel n) = n ∧
    (∀ c ∈ natToHexDigitsAux fuel n, c ∈ hexDigitSet) ∧
    (∀ k, 0 < k → n < 16 ^ k → (natToHexDigitsAux fuel n).length ≤ k) ∧
    (∀ k, 16 ^ k ≤ n → k < (natToHexDigitsAux fuel n).length) := by
  intro fuel
  induction fuel with
  | zero =>
    intro n hn
    have hn0 : n = 0 := by simpa using hn
    subst hn0
    refine ⟨rfl, by simp [natToHexDigitsAux], ?_, ?_⟩
    · intro k _ _; simp [natToHexDigitsAux]
    · intro k hk
      have := Nat.pos_pow_of_pos k (show 0 < 16 by norm_num)
      omega
  | succ fuel ih =>
    intro n hn
    by_cases h16 : n < 16
    · simp only [natToHexDigitsAux, if_pos h16]
      refine ⟨?_, ?_, ?_, ?_⟩
      · simp [hexListVal, hexCharVal_digitChar n h16]
      · intro c hc
        rw [List.mem_singleton] at hc
        subst hc
        exact digitChar_mem_hexSet n h16
      · intro k hk _
        simpa using hk
      · intro k hk
        have hk0 : k = 0 := by
          by_contra h0
          have h1 : (16 : Nat) ^ 1 ≤ 16 ^ k :=
            Nat.pow_le_pow_right (by norm_num) (by omega)
          simp at h1
          omega
        subst hk0
        simp
    · push_neg at h16
      have hdiv : n / 16 < 16 ^ fuel := by
        have hlt : n < 16 * 16 ^ fuel := by
          calc n < 16 ^ (fuel + 1) := hn
          _ = 16 * 16 ^ fuel := by rw [pow_succ']
        exact Nat.div_lt_of_lt_mul hlt
      obtain ⟨ihv, ihmem, ihle, ihgt⟩ := ih (n / 16) hdiv
      simp only [natToHexDigitsAux, if_neg (by omega : ¬ n < 16)]
      refine ⟨?_, ?_, ?_, ?_⟩
      · rw [hexListVal_append_singleton, ihv,
          hexCharVal_digitChar _ (Nat.mod_lt n (by norm_num))]
        omega
      · intro c hc
        rcases List.mem_append.mp hc with h | h
        · exact ihmem c h
        · rw [List.mem_singleton] at h
          subst h
          exact digitChar_mem_hexSet _ (Nat.mod_lt n (by norm_num))
      · intro k hk hnk
        have hk2 : 2 ≤ k := by
          by_contra hc
          interval_cases k
          simp at hnk
          omega
        have hdivk : n / 16 < 16 ^ (k - 1) := by
          have hsucc : k - 1 + 1 = k := by omega
          have hlt : n < 16 * 16 ^ (k - 1) := by
            calc n < 16 ^ k := hnk
            _ = 16 * 16 ^ (k - 1) := by rw [← pow_succ', hsucc]
          exact Nat.div_lt_of_lt_mul hlt
        have := ihle (k - 1) (by omega) hdivk
        simp only [List.length_append, List.length_singleton]
        omega
      · intro k hk
        cases k with
        | zero =>
          simp only [List.length_append, List.length_singleton]
          omega
        | succ j =>
          have hj : 16 ^ j ≤ n / 16 := by
            rw [Nat.le_div_iff_mul_le (by norm_num : 0 < 16)]
            calc 16 ^ j * 16 = 16 ^ (j + 1) := by rw [pow_succ]
            _ ≤ n := hk
          have := ihgt j hj
          simp only [List.length_append, List.length_singleton]
          omega

theorem foldl_hex_replicate_zero : ∀ k : Nat,
    List.foldl (fun a c => 16 * a + hexCharVal c) 0 (List.replicate k '0') = 0 := by
  intro k
  induction k with
  | zero => rfl
  | succ k ih => simpa [List.replicate_succ, hexCharVal] using ih

theorem hexListVal_replicate_zero (k : Nat) (l : List Char) :
    hexListVal (List.replicate k '0' ++ l) = hexListVal l := by
  simp [hexListVal, List.foldl_append, foldl_hex_replicate_zero]

/-- C5 (amended): the formatted address is `"0x"` followed by lowercase hex
digits whose value is exactly the formatted number (nothing is truncated);
for values below `2 ^ 40` the digit field is zero-padded to exactly 10
digits (total length 12), but `std::setw` is only a *minimum* width, so a
value of 40 bits or more yields more than 10 digits. -/
theorem formatAddress_format (a : Nat) (h64 : a < 2 ^ 64) :
    (formatAddress a).toList.take 2 = ['0', 'x'] ∧
    (∀ c ∈ (formatAddress a).toList.drop 2, c ∈ hexDigitSet) ∧
    hexListVal ((formatAddress a).toList.drop 2) = a ∧
    (a < 2 ^ 40 → (formatAddress a).length = 12) ∧
    (2 ^ 40 ≤ a → 13 ≤ (formatAddress a).length) := by
  have hfuel : a < 16 ^ 64 :=
    lt_of_lt_of_le h64 (Nat.pow_le_pow_left (by norm_num) 64)
  obtain ⟨hv, hmem, hle, hgt⟩ := natToHexDigitsAux_spec 64 a hfuel
  have hstruct : (formatAddress a).toList =
      '0' :: 'x' :: (List.replicate (10 - (natToHexDigits a).length) '0'
        ++ natToHexDigits a) := rfl
  have hlen : (formatAddress a).length =
      2 + ((10 - (natToHexDigits a).length) + (natToHexDigits a).length) := by
    have : (formatAddress a).length = (formatAddress a).toList.length := rfl
    rw [this, hstruct]
    simp [List.length_append]
    omega
  refine ⟨by rw [hstruct]; simp, ?_, ?_, ?_, ?_⟩
  · rw [hstruct]
    intro c hc
    simp only [List.drop_succ_cons, List.drop_zero] at hc
    rcases List.mem_append.mp hc with h | h
    · rw [List.eq_of_mem_replicate h]
      decide
    · exact hmem c h
  · rw [hstruct]
    simp only [List.drop_succ_cons, List.drop_zero]
    rw [hexListVal_replicate_zero]
    exact hv
  · intro h40
    have h10 : a < 16 ^ 10 := by
      calc a < 2 ^ 40 := h40
      _ = 16 ^ 10 := by norm_num
    have hd : (natToHexDigits a).length ≤ 10 := hle 10 (by norm_num) h10
    omega
  · intro h40
    have h10 : 16 ^ 10 ≤ a := by
      calc (16 : Nat) ^ 10 = 2 ^ 40 := by norm_num
      _ ≤ a := h40
    have hd : 10 < (natToHexDigits a).length := hgt 10 h10
    omega

/-- C5 counterexample: at the 40-bit value `2 ^ 40` the formatted text has 11
hex digits (total length 13), not the exactly-10-digit field (length 12) the
claim asserts for every 64-bit value. -/
theorem formatAddress_not_always_ten_digits :
    (formatAddress 1099511627776).length = 13 ∧
    (formatAddress 1099511627776).length ≠ 12 := by
  exact ⟨by decide, by decide⟩

/-- C5 witness: at the concrete value 255 the text is `0x` plus a 10-digit
zero-padded field decoding back to 255. -/
theorem formatAddress_format_witness :
    (formatAddress 255).toList.take 2 = ['0', 'x'] ∧
    hexListVal ((formatAddress 255).toList.drop 2) = 255 ∧
    (formatAddress 255).length = 12 :=
  ⟨(formatAddress_format 255 (by norm_num)).1,
   (formatAddress_format 255 (by norm_num)).2.2.1,
   (formatAddress_format 255 (by norm_num)).2.2.2.1 (by norm_num)⟩

/-- Claim-side predicate: the marker keyword occurs (case-insensitively) at
position `i` of the line. -/
def keywordAt (l : List Nat) (i : Nat) : Bool :=
  leadEq keywordCodes ((l.map lowN).drop i)

/-- Claim-side formulation of "anywhere on the line": the first position,
among all positions of the line, where the keyword occurs. -/
def firstKeywordIdx (l : List Nat) : Option Nat :=
  (List.range l.length).find? (keywordAt l)

/-- Claim-side digit capture: the digits after optional whitespace after the
first keyword occurrence. -/
def specDigits (l : List Nat) : Option (List Nat) :=
  (firstKeywordIdx l).map (fun i => digitsAfter (l.drop (i + keywordCodes.length)))

/-- Claim-side marker value: the parsed integer when digits are present, the
sentinel `-1` otherwise; `none` when the line has no keyword occurrence. -/
def specLineValue (l : List Nat) : Option Int :=
  (specDigits l).map (fun ds => if ds.isEmpty then (-1 : Int) else (codesVal ds : Int))

/-- Claim-side marker list: one marker per keyword-bearing line, carrying the
1-based line number and the marker value. -/
def specMarkers (lines : List String) : List SaveTimestampInfo :=
  (List.enumFrom 1 (lines.map strCodes)).filterMap
    (fun p => (specLineValue p.2).map (fun v => ⟨p.1, v⟩))

/-- A line whose captured digit run (if any) fits in `int`, i.e. does not
trip the `std::stoi` overflow of C6. -/
def lineDigitsOk (l : List Nat) : Bool :=
  match markerDigits l with
  | some ds => decide (codesVal ds ≤ 2147483647)
  | none => true

theorem scanKeyword_eq_firstIdx : ∀ l : List Nat,
    scanKeyword l = (firstKeywordIdx l).map (fun i => l.drop (i + keywordCodes.length)) := by
  intro l
  induction l with
  | nil => rfl
  | cons c rest ih =>
    have hC : scanKeyword (c :: rest) =
        if leadEq keywordCodes ((c :: rest).map lowN) = true
        then some ((c :: rest).drop keywordCodes.length) else scanKeyword rest := rfl
    rw [hC]
    by_cases h : leadEq keywordCodes ((c :: rest).map lowN) = true
    · have h0 : keywordAt (c :: rest) 0 = true := by
        simpa [keywordAt] using h
      have hfirst : firstKeywordIdx (c :: rest) = some 0 := by
        unfold firstKeywordIdx
        rw [List.length_cons, List.range_succ_eq_map]
        exact List.find?_cons_of_pos _ h0
      rw [if_pos h, hfirst, Option.map_some', Nat.zero_add]
    · have h0 : ¬ keywordAt (c :: rest) 0 = true := by
        simpa [keywordAt] using h
      have hcomp : (keywordAt (c :: rest)) ∘ Nat.succ = keywordAt rest := by
        funext i
        rfl
      have hfirst : firstKeywordIdx (c :: rest) = (firstKeywordIdx rest).map Nat.succ := by
        unfold firstKeywordIdx
        rw [List.length_cons, List.range_succ_eq_map, List.find?_cons_of_neg _ h0,
          List.find?_map, hcomp]
      have hfun : ((fun i => (c :: rest).drop (i + keywordCodes.length)) ∘ Nat.succ)
          = (fun i => rest.drop (i + keywordCodes.length)) := by
        funext i
        show (c :: rest).drop (Nat.succ i + keywordCodes.length)
            = rest.drop (i + keywordCodes.length)
        have h1 : Nat.succ i + keywordCodes.length = (i + keywordCodes.length) + 1 := by
          omega
        rw [h1, List.drop_succ_cons]
      rw [if_neg h, hfirst, Option.map_map, hfun, ih]

theorem markerDigits_eq_specDigits (l : List Nat) : markerDigits l = specDigits l := by
  unfold markerDigits specDigits
  rw [scanKeyword_eq_firstIdx, Option.map_map]
  rfl

theorem lowN_idem (n : Nat) : lowN (lowN n) = lowN n := by
  unfold lowN
  split
  · rw [if_neg (by omega)]
  · rfl

theorem isSpaceCode_lowN (n : Nat) : isSpaceCode (lowN n) = isSpaceCode n := by
  unfold isSpaceCode lowN
  split
  · rw [decide_eq_decide]
    omega
  · rfl

theorem isDigitCode_lowN (n : Nat) : isDigitCode (lowN n) = isDigitCode n := by
  unfold isDigitCode lowN
  split
  · rw [decide_eq_decide]
    omega
  · rfl

theorem lowN_of_digit {n : Nat} (h : isDigitCode n = true) : lowN n = n := by
  simp only [isDigitCode, decide_eq_true_eq] at h
  unfold lowN
  rw [if_neg (by omega)]

theorem digitsAfter_map_lowN (l : List Nat) : digitsAfter (l.map lowN) = digitsAfter l := by
  unfold digitsAfter
  have h1 : isSpaceCode ∘ lowN = isSpaceCode := funext isSpaceCode_lowN
  have h2 : isDigitCode ∘ lowN = isDigitCode := funext isDigitCode_lowN
  rw [List.dropWhile_map, h1, List.takeWhile_map, h2]
  have hfix : ∀ x ∈ (l.dropWhile isSpaceCode).takeWhile isDigitCode, lowN x = x :=
    fun x hx => lowN_of_digit (List.mem_takeWhile_imp hx)
  calc ((l.dropWhile isSpaceCode).takeWhile isDigitCode).map lowN
      = ((l.dropWhile isSpaceCode).takeWhile isDigitCode).map id :=
        List.map_congr_left hfix
    _ = (l.dropWhile isSpaceCode).takeWhile isDigitCode := List.map_id _

theorem map_lowN_idem (l : List Nat) : (l.map lowN).map lowN = l.map lowN := by
  rw [List.map_map]
  have h : lowN ∘ lowN = lowN := funext lowN_idem
  rw [h]

theorem scanKeyword_map_lowN : ∀ l : List Nat,
    scanKeyword (l.map lowN) = (scanKeyword l).map (List.map lowN) := by
  intro l
  induction l with
  | nil => rfl
  | cons c rest ih =>
    have hC : scanKeyword (c :: rest) =
        if leadEq keywordCodes ((c :: rest).map lowN) = true
        then some ((c :: rest).drop keywordCodes.length) else scanKeyword rest := rfl
    have hL : scanKeyword ((c :: rest).map lowN) =
        if leadEq keywordCodes (((c :: rest).map lowN).map lowN) = true
        then some (((c :: rest).map lowN).drop keywordCodes.length)
        else scanKeyword (rest.map lowN) := rfl
    rw [hL, hC, map_lowN_idem]
    by_cases h : leadEq keywordCodes ((c :: rest).map lowN) = true
    · rw [if_pos h, if_pos h, Option.map_some', List.map_drop]
    · rw [if_neg h, if_neg h]
      exact ih

theorem markerDigits_map_lowN (l : List Nat) :
    markerDigits (l.map lowN) = markerDigits l := by
  unfold markerDigits
  rw [scanKeyword_map_lowN, Option.map_map]
  have h : digitsAfter ∘ List.map lowN = digitsAfter := funext digitsAfter_map_lowN
  rw [h]

theorem lineMarker_map_lowN (n : Nat) (l : List Nat) :
    lineMarker n (l.map lowN) = lineMarker n l := by
  unfold lineMarker
  rw [markerDigits_map_lowN]

theorem parseCodeLines_map_lowN : ∀ (ls : List (List Nat)) (n : Nat),
    parseCodeLines n (ls.map (List.map lowN)) = parseCodeLines n ls := by
  intro ls
  induction ls with
  | nil => intro n; rfl
  | cons l ls ih =>
    intro n
    simp only [List.map_cons, parseCodeLines, lineMarker_map_lowN, ih]

theorem parseCodeLines_spec : ∀ (ls : List (List Nat)) (n : Nat),
    (∀ l ∈ ls, lineDigitsOk l = true) →
    parseCodeLines n ls = .ok ((List.enumFrom n ls).filterMap
      (fun p => (specLineValue p.2).map (fun v => ⟨p.1, v⟩))) := by
  intro ls
  induction ls with
  | nil => intro n _; rfl
  | cons l ls ih =>
    intro n hok
    have hl := hok l (List.mem_cons_self l ls)
    have hrest : ∀ x ∈ ls, lineDigitsOk x = true :=
      fun x hx => hok x (List.mem_cons_of_mem _ hx)
    have hspec : specLineValue l = (markerDigits l).map
        (fun ds => if ds.isEmpty then (-1 : Int) else (codesVal ds : Int)) := by
      unfold specLineValue
      rw [← markerDigits_eq_specDigits]
    cases hmd : markerDigits l with
    | none =>
      have hs : specLineValue l = none := by rw [hspec, hmd]; rfl
      have hparse := ih (n + 1) hrest
      simp only [parseCodeLines, lineMarker, hmd, List.enumFrom_cons, List.filterMap_cons,
        hs, Option.map_none', hparse]
    | some ds =>
      cases ds with
      | nil =>
        have hs : specLineValue l = some (-1) := by rw [hspec, hmd]; rfl
        have hparse := ih (n + 1) hrest
        simp only [parseCodeLines, lineMarker, hmd, List.enumFrom_cons, List.filterMap_cons,
          hs, Option.map_some', hparse]
      | cons d ds' =>
        have hmax : codesVal (d :: ds') ≤ 2147483647 := by
          simp only [lineDigitsOk, hmd, decide_eq_true_eq] at hl
          exact hl
        have hs : specLineValue l = some ((codesVal (d :: ds') : Int)) := by
          rw [hspec, hmd]
          rfl
        have hparse := ih (n + 1) hrest
        simp only [parseCodeLines, lineMarker, hmd, stoiCodes, if_pos hmax,
          List.enumFrom_cons, List.filterMap_cons, hs, Option.map_some', hparse]

/-- C8: the marker parser recognizes the directive keyword in any
letter-casing anywhere on a line, optionally followed by whitespace and a
decimal integer, and records one marker per matching line carrying the
1-based line number and the parsed integer when present (the sentinel `-1`
otherwise) — under the proviso that no captured digit run overflows `int`
(that slip is claim C6).  Lower-casing every code point of every line does
not change the parse at all. -/
theorem parseSaveTimestamps_spec (lines : List String) :
    ((∀ l ∈ lines.map strCodes, lineDigitsOk l = true) →
      parseSaveTimestamps lines = .ok (specMarkers lines)) ∧
    (∀ (codeLines : List (List Nat)) (n : Nat),
      parseCodeLines n (codeLines.map (List.map lowN)) = parseCodeLines n codeLines) := by
  constructor
  · intro h
    unfold parseSaveTimestamps specMarkers
    exact parseCodeLines_spec _ 1 h
  · intro codeLines n
    exact parseCodeLines_map_lowN codeLines n

/-- Concrete mixed-casing lines for the C8 witness. -/
def mixedLines : List String :=
  ["nop", "Save_Timestamps 12", "foo SAVE_TIMESTAMPS", "save_timestamps abc"]

/-- C8 witness: the parse of the concrete mixed-casing lines equals the
claim-side marker list, and lower-casing a concrete upper-case line leaves
the parse unchanged. -/
theorem parseSaveTimestamps_spec_witness :
    parseSaveTimestamps mixedLines = .ok (specMarkers mixedLines) ∧
    parseCodeLines 1 ([strCodes "SAVE_TIMESTAMPS 7"].map (List.map lowN)) =
      parseCodeLines 1 [strCodes "SAVE_TIMESTAMPS 7"] :=
  ⟨(parseSaveTimestamps_spec mixedLines).1 (by decide),
   (parseSaveTimestamps_spec mixedLines).2 [strCodes "SAVE_TIMESTAMPS 7"] 1⟩

end XDPCT
